import Mathlib

/-!
# Verification of the clortho license service core

Shallow embedding of the core algorithms of the clortho repository
(license-key generation, charset parsing, generation-settings resolution,
the license-check validation pipeline, offline token signing, duration
parsing, and the per-IP rate limiter), together with theorems settling the
frozen claims about the natural-language specification.

Go strings are modelled at the byte level (`GoStr := List Nat`, each entry a
byte value < 256) wherever the source indexes or measures strings by bytes
(charset parsing, key sampling, duration suffix handling, base64 decoding).
Strings that are only compared for equality or emptiness in the source
(license keys, reasons, feature codes, versions, IP literals) are modelled as
Lean `String`.
-/

namespace Clortho

/-- A Go string viewed as its byte sequence. -/
abbrev GoStr := List Nat

/-- Converts an ASCII Lean string literal to its Go byte sequence.
Used only to write concrete ASCII inputs and expected outputs. -/
def gostr (s : String) : GoStr := s.data.map Char.toNat

/-! ## Charset parser (internal/service/license_generator.go, ParseCharset) -/

/-- `defaultCharset` from license_generator.go:
"abcdefghijklmnopqrstuvwxyzABCDEFGHIJKLMNOPQRSTUVWXYZ0123456789"
written as the byte ranges a-z (97..122), A-Z (65..90), 0-9 (48..57). -/
def defaultCharset : GoStr :=
  (List.range 26).map (97 + ·) ++ (List.range 26).map (65 + ·) ++ (List.range 10).map (48 + ·)

/-- `strings.Split` on a single separator byte. -/
def splitByte (sep : Nat) : GoStr → List GoStr
  | [] => [[]]
  | b :: rest =>
    match splitByte sep rest with
    | [] => [[b]]
    | t :: ts => if b = sep then [] :: t :: ts else (b :: t) :: ts

/-- The bytes from `start` to `stop` inclusive, as produced by the Go loop
`for i := start; i <= end; i++`. (The Go loop counter is a byte; for
`stop = 255` the Go loop would wrap around and not terminate, but byte 0xFF
never occurs in valid UTF-8 input, which is the only input the charset spec
can carry through the JSON/DB boundary.) -/
def expandRange (start stop : Nat) : GoStr :=
  (List.range (stop + 1 - start)).map (start + ·)

/-- One iteration of the ParseCharset loop body: a 3-byte token whose middle
byte is '-' (45) is a range (error when start > stop); every other token is
taken literally. -/
def expandPart (part : GoStr) : Except String GoStr :=
  match part with
  | [a, m, b] =>
    if m = 45 then
      if a > b then .error "invalid range"
      else .ok (expandRange a b)
    else .ok part
  | _ => .ok part

/-- `ParseCharset` from internal/service/license_generator.go: empty input
yields the default charset; otherwise the comma-separated tokens are
expanded in order and concatenated, failing on a descending range. -/
def ParseCharset (input : GoStr) : Except String GoStr :=
  if input = [] then .ok defaultCharset
  else
    (splitByte 44 input).foldlM (fun acc part => (expandPart part).map (acc ++ ·)) []

/-- Claim-side reading of one token ("each comma-separated token's literal
characters or, for a 3-character token X-Y, all characters from X to Y
inclusive"); only applied when the token is not a descending range. -/
def claimExpand (part : GoStr) : GoStr :=
  match part with
  | [a, m, b] => if m = 45 then expandRange a b else [a, m, b]
  | p => p

/-- Claim-side bad-range test: a 3-character token X-Y with X > Y. -/
def claimBadRange (part : GoStr) : Bool :=
  match part with
  | [a, m, b] => decide (m = 45 ∧ a > b)
  | _ => false

/-! ## Key generator (internal/service/license_generator.go, GenerateLicenseKey) -/

/-- The cryptographically secure random source (`crypto/rand` via
`rand.Int(rand.Reader, bound)`): at loop step `i`, with exclusive upper
bound `n`, it yields a number < `n` or an error. -/
abbrev RandSrc := Nat → Nat → Except String Nat

/-- The sampling loop of GenerateLicenseKey: at step `i` it draws an index
below the charset length and selects that byte of the charset; the first
random-source error aborts. (`rand.Int` guarantees the index is in range;
theorems carry that as a hypothesis on the source, and `getD` stands in for
the Go index expression `usedCharset[num]`.) -/
def sampleChars (src : RandSrc) (usedCharset : GoStr) : Nat → Nat → Except String GoStr
  | _, 0 => .ok []
  | i, n + 1 => do
    let num ← src i usedCharset.length
    let rest ← sampleChars src usedCharset (i + 1) n
    pure (usedCharset.getD num 0 :: rest)

/-- `GenerateLicenseKey` from internal/service/license_generator.go:
defaults (non-positive length → 12, empty separator → "-", empty charset →
default charset), then `length` random bytes from the charset, prepended
with `pfx + separator` when the prefix is non-empty. -/
def GenerateLicenseKey (pfx : GoStr) (length : Int) (separator : GoStr)
    (charset : GoStr) (src : RandSrc) : Except String GoStr :=
  let length := if length ≤ 0 then 12 else length
  let separator := if separator = [] then [45] else separator
  let usedCharset := if charset = [] then defaultCharset else charset
  match sampleChars src usedCharset 0 length.toNat with
  | .error e => .error e
  | .ok randomString =>
    if pfx ≠ [] then .ok (pfx ++ separator ++ randomString)
    else .ok randomString

/-! ## Duration parsing (internal/api/handlers/utils.go, ParseExpirationDuration) -/

/-- `strconv.Atoi`: optional sign, at least one digit, all digits, value
within the 64-bit signed range (Atoi errors on overflow). -/
def goAtoi (s : GoStr) : Except String Int :=
  match s with
  | [] => .error "invalid syntax"
  | c :: rest =>
    let (neg, digits) :=
      if c = 43 then (false, rest)
      else if c = 45 then (true, rest)
      else (false, c :: rest)
    if digits = [] then .error "invalid syntax"
    else if digits.all (fun d => 48 ≤ d ∧ d ≤ 57) then
      let n : Nat := digits.foldl (fun a d => a * 10 + (d - 48)) 0
      let v : Int := if neg then -(n : Int) else (n : Int)
      if -(2 ^ 63) ≤ v ∧ v < 2 ^ 63 then .ok v else .error "value out of range"
    else .error "invalid syntax"

/-- The expiry offset a parsed duration denotes, mirroring the Go switch:
`time.Minute`/`time.Hour` additions versus calendar-aware `AddDate`. -/
inductive ExpiryOffset
  | addMinutes (n : Int)
  | addHours (n : Int)
  | addDate (years months days : Int)
deriving DecidableEq, Repr

/-- `ParseExpirationDuration` from internal/api/handlers/utils.go: strings of
at least two bytes, unit suffix "mo" (checked first) or the single final
byte, numeric part via Atoi, units m/h/d/w/mo/y. -/
def ParseExpirationDuration (d : GoStr) : Except String ExpiryOffset :=
  if d.length < 2 then .error "duration too short"
  else
    let unit : GoStr :=
      if [109, 111].isSuffixOf d then [109, 111] else d.drop (d.length - 1)
    let valStr :=
      if [109, 111].isSuffixOf d then d.take (d.length - 2) else d.take (d.length - 1)
    match goAtoi valStr with
    | .error _ => .error "invalid number"
    | .ok val =>
      if unit = [109] then .ok (.addMinutes val)
      else if unit = [104] then .ok (.addHours val)
      else if unit = [100] then .ok (.addDate 0 0 val)
      else if unit = [119] then .ok (.addDate 0 0 (val * 7))
      else if unit = [109, 111] then .ok (.addDate 0 val 0)
      else if unit = [121] then .ok (.addDate val 0 0)
      else .error "unknown unit"

/-- Whether `d` is of the form N ++ `unit` with N a (strconv.Atoi) integer. -/
def endsWithUnit (d : GoStr) (unit : GoStr) : Bool :=
  unit.isSuffixOf d && (goAtoi (d.take (d.length - unit.length))).isOk

/-- Claim-side well-formedness of a duration string: of the form Nm, Nh, Nd,
Nw, Nmo or Ny with an integer N (byte values: m=109, h=104, d=100, w=119,
o=111, y=121). -/
def claimWellFormedDuration (d : GoStr) : Bool :=
  endsWithUnit d [109] || endsWithUnit d [104] || endsWithUnit d [100] ||
    endsWithUnit d [119] || endsWithUnit d [109, 111] || endsWithUnit d [121]

/-! ## Generation-settings resolution (GenerateLicenseHandler, the block
"Resolve settings with inheritance from ProductGroup") -/

/-- The generation-default fields of models.Product read by the resolver.
(Identity, description, type/duration defaults and timestamps are omitted:
the resolver does not read them. The product's group reference is modelled
by the `Option ProductGroup` argument of `resolveSettings`: `some` when the
product has a group and the store fetch succeeds.) -/
structure Product where
  licensePrefix : GoStr
  licenseSeparator : GoStr
  licenseCharset : GoStr
  licenseLength : Int
deriving DecidableEq, Repr

/-- The generation-default fields of models.ProductGroup read by the resolver. -/
structure ProductGroup where
  licensePrefix : GoStr
  licenseSeparator : GoStr
  licenseCharset : GoStr
  licenseLength : Int
deriving DecidableEq, Repr

/-- The four resolved generation settings. `charsetRaw` is the unparsed
charset spec (ParseCharset maps "" to the default charset downstream), and
`separator` may still be "" (GenerateLicenseKey maps "" to "-" downstream),
exactly as in the handler. -/
structure GenSettings where
  licensePrefix : GoStr
  separator : GoStr
  charsetRaw : GoStr
  length : Int
deriving DecidableEq, Repr

/-- The settings-resolution block of GenerateLicenseHandler: product values,
group inheritance for empty/default fields, then built-in defaults, then the
per-request prefix override. `reqPrefix`/`reqLength` are the request's
`prefix`/`length` fields (the request carries no separator or charset). -/
def resolveSettings (reqPrefix : GoStr) (reqLength : Int) (product : Product)
    (group? : Option ProductGroup) : GenSettings :=
  let p := product.licensePrefix
  let separator := product.licenseSeparator
  let charsetRaw := product.licenseCharset
  let length := if reqLength = 0 then product.licenseLength else reqLength
  let (p, separator, charsetRaw, length) :=
    match group? with
    | none => (p, separator, charsetRaw, length)
    | some group =>
      let p := if p = [] then group.licensePrefix else p
      let separator :=
        if (separator = [] ∨ separator = [45]) ∧ group.licenseSeparator ≠ [] then
          group.licenseSeparator
        else separator
      let charsetRaw := if charsetRaw = [] then group.licenseCharset else charsetRaw
      let length := if length = 0 then group.licenseLength else length
      (p, separator, charsetRaw, length)
  let length := if length ≤ 0 then 12 else length
  let p := if p = [] then gostr "LICENSE" else p
  let p := if reqPrefix ≠ [] then reqPrefix else p
  ⟨p, separator, charsetRaw, length⟩

/-- The separator actually used when composing a key: GenerateLicenseKey
substitutes "-" for an empty separator. -/
def effectiveSeparator (s : GenSettings) : GoStr :=
  if s.separator = [] then [45] else s.separator

/-- Claim-side prefix resolution, following the claim's words: request value
when non-empty, else product value when non-empty, else group value, else
the built-in default "LICENSE". -/
def claimedPrefix (reqPrefix : GoStr) (product : Product) (group? : Option ProductGroup) : GoStr :=
  if reqPrefix ≠ [] then reqPrefix
  else if product.licensePrefix ≠ [] then product.licensePrefix
  else if (group?.map ProductGroup.licensePrefix).getD [] ≠ [] then
    (group?.map ProductGroup.licensePrefix).getD []
  else gostr "LICENSE"

/-- Claim-side separator resolution: product value when non-empty and
non-default ("-"), else group value when non-empty, else the default "-"
(the request carries no separator field). -/
def claimedSeparator (product : Product) (group? : Option ProductGroup) : GoStr :=
  if product.licenseSeparator ≠ [] ∧ product.licenseSeparator ≠ [45] then
    product.licenseSeparator
  else if (group?.map ProductGroup.licenseSeparator).getD [] ≠ [] then
    (group?.map ProductGroup.licenseSeparator).getD []
  else [45]

/-- Claim-side charset resolution, at the raw-spec level: product value when
non-empty, else group value; "" denotes the Key Generator default, which is
what ParseCharset maps "" to (the request carries no charset field). -/
def claimedCharsetRaw (product : Product) (group? : Option ProductGroup) : GoStr :=
  if product.licenseCharset ≠ [] then product.licenseCharset
  else (group?.map ProductGroup.licenseCharset).getD []

/-- Claim-side length resolution exactly as the claim states it: the
explicit per-request value when non-zero, else the product's value when
non-zero, else the group's value when non-zero, else the built-in default
12. -/
def claimedLength (reqLength : Int) (product : Product) (group? : Option ProductGroup) : Int :=
  if reqLength ≠ 0 then reqLength
  else if product.licenseLength ≠ 0 then product.licenseLength
  else if (group?.map ProductGroup.licenseLength).getD 0 ≠ 0 then
    (group?.map ProductGroup.licenseLength).getD 0
  else 12

/-- Amended length resolution: non-zero still marks a value as "provided" at
the request/product/group levels, but any non-positive resolved value falls
back to the built-in default 12 (the handler's final `length <= 0` guard). -/
def amendedLength (reqLength : Int) (product : Product) (group? : Option ProductGroup) : Int :=
  let l :=
    if reqLength ≠ 0 then reqLength
    else if product.licenseLength ≠ 0 then product.licenseLength
    else (group?.map ProductGroup.licenseLength).getD 0
  if l ≤ 0 then 12 else l

/-! ## Offline token signer (internal/service/sign.go, SignLicense) -/

/-- Value of one base64 character in the standard alphabet (A-Z a-z 0-9 + /). -/
def b64Val (c : Nat) : Option Nat :=
  if 65 ≤ c ∧ c ≤ 90 then some (c - 65)
  else if 97 ≤ c ∧ c ≤ 122 then some (c - 97 + 26)
  else if 48 ≤ c ∧ c ≤ 57 then some (c - 48 + 52)
  else if c = 43 then some 62
  else if c = 47 then some 63
  else none

/-- Quad-by-quad base64 decoding with '=' padding allowed only in the final
quad, as in Go's `encoding/base64` standard decoding (which also tolerates
the unused trailing bits of the final quantum). -/
def decodeQuads : GoStr → Except String (List Nat)
  | [] => .ok []
  | a :: b :: c :: d :: rest =>
    match b64Val a, b64Val b with
    | some va, some vb =>
      if c = 61 then
        if d = 61 ∧ rest = [] then .ok [va * 4 + vb / 16]
        else .error "illegal base64 data"
      else
        match b64Val c with
        | some vc =>
          if d = 61 then
            if rest = [] then .ok [va * 4 + vb / 16, (vb % 16) * 16 + vc / 4]
            else .error "illegal base64 data"
          else
            match b64Val d with
            | some vd =>
              (decodeQuads rest).map
                ([va * 4 + vb / 16, (vb % 16) * 16 + vc / 4, (vc % 4) * 64 + vd] ++ ·)
            | none => .error "illegal base64 data"
        | none => .error "illegal base64 data"
    | _, _ => .error "illegal base64 data"
  | _ => .error "illegal base64 data"

/-- `base64.StdEncoding.DecodeString`: newline bytes are ignored, then the
input must be whole padded quads over the standard alphabet. -/
def base64StdDecode (s : GoStr) : Except String (List Nat) :=
  decodeQuads (s.filter (fun c => c ≠ 13 ∧ c ≠ 10))

/-- The payload (JWT claims map) of the signed offline token built by
SignLicense: "sub", "iss", "valid", "features", and "exp" present exactly
when set. The Ed25519/JWT serialization and signature bytes are abstracted:
the modelled value is the claims payload the token carries. -/
structure JWTClaims where
  sub : String
  iss : String
  valid : Bool
  features : List String
  exp : Option Int
deriving DecidableEq, Repr

/-- `SignLicense` from internal/service (part_009): empty key material is an
error, the base64-decoded key must be exactly ed25519.PrivateKeySize (64)
bytes, and on success the token's claims are
sub = license key, iss = "clortho", valid, features, and exp when an expiry
is set. -/
def SignLicense (privateKeyBase64 : GoStr) (key : String) (expiresAt : Option Int)
    (valid : Bool) (features : List String) : Except String JWTClaims :=
  if privateKeyBase64 = [] then .error "private key is empty"
  else
    match base64StdDecode privateKeyBase64 with
    | .error _ => .error "failed to decode private key"
    | .ok privateKeyBytes =>
      if privateKeyBytes.length ≠ 64 then .error "invalid private key size"
      else .ok { sub := key, iss := "clortho", valid := valid, features := features,
                 exp := expiresAt }

/-! ## IP address and CIDR parsing (net.ParseIP / net.ParseCIDR, the IPv4
fragment)

The handler calls `net.ParseIP` and `net.ParseCIDR` on caller addresses and
allow-list entries. IPv4 addresses are modelled as their 32-bit value; the
IPv6 forms accepted by `net.ParseIP` are not modelled (every claim is
settled on IPv4 inputs, and the pipeline theorems only assume parse
success/failure, never a specific address family). -/

/-- Splitting a character sequence on a separator character
(`strings.Split` over the string's characters). -/
def splitChar (sep : Char) : List Char → List (List Char)
  | [] => [[]]
  | c :: rest =>
    match splitChar sep rest with
    | [] => [[c]]
    | t :: ts => if c = sep then [] :: t :: ts else (c :: t) :: ts

/-- One dotted-quad field as parsed by Go (>= Go 1.17): non-empty, digits
only, no leading zero, value at most 255. -/
def ipField (cs : List Char) : Option Nat :=
  if cs = [] then none
  else if ¬ cs.all (fun c => '0' ≤ c ∧ c ≤ '9') then none
  else if cs.length > 1 ∧ cs.head? = some '0' then none
  else
    let v := cs.foldl (fun a c => a * 10 + (c.toNat - 48)) 0
    if v ≤ 255 then some v else none

/-- `net.ParseIP`, IPv4 fragment, over characters: exactly four dotted-quad
fields. -/
def parseIPChars (cs : List Char) : Option Nat :=
  match (splitChar '.' cs).mapM ipField with
  | some [a, b, c, d] => some (((a * 256 + b) * 256 + c) * 256 + d)
  | _ => none

/-- `net.ParseIP`, IPv4 fragment. -/
def parseIP (s : String) : Option Nat :=
  parseIPChars s.data

/-- The prefix-length part of a CIDR: digits only, non-empty, value at most
32 (Go's `dtoi` accepts leading zeros here). -/
def cidrBits (cs : List Char) : Option Nat :=
  if cs = [] then none
  else if ¬ cs.all (fun c => '0' ≤ c ∧ c ≤ '9') then none
  else
    let v := cs.foldl (fun a c => a * 10 + (c.toNat - 48)) 0
    if v ≤ 32 then some v else none

/-- `net.ParseCIDR`, IPv4 fragment: address before the '/', prefix length
after it. Returns the address as written (unmasked, Go's first return
value) together with the prefix length. (Go splits at the first '/'; with
more than one '/' both parsers reject, Go because the mask is not decimal,
this model because the split is not binary.) -/
def parseCIDR (s : String) : Option (Nat × Nat) :=
  match splitChar '/' s.data with
  | [addr, mask] =>
    match parseIPChars addr, cidrBits mask with
    | some ip, some n => some (ip, n)
    | _, _ => none
  | _ => none

/-- `IPNet.Contains`: the client address matches when its upper `bits` bits
agree with the network base's. -/
def cidrContains (base bits ip : Nat) : Bool :=
  ip / 2 ^ (32 - bits) = base / 2 ^ (32 - bits)

/-! ## License model and the check validation pipeline (CheckLicenseHandler) -/

/-- models.LicenseStatus. -/
inductive LicenseStatus
  | active
  | revoked
  | expired
deriving DecidableEq, Repr

/-- The fields of models.License read or written by the check pipeline.
Identity, owner, type, product reference and timestamps are omitted (the
pipeline never branches on them). Expiry instants are modelled as integer
timestamps compared with `now`. The `autoAllowedIP`/`autoAllowedIPLimit`
pair is the per-license auto-allow policy: it is exercised by
src/internal/api/auto_allowed_ip_test.go and read by the current handler,
whose source (and the current models.go carrying these fields) is absent
from src. -/
structure License where
  key : String
  status : LicenseStatus
  expiresAt : Option Int
  allowedIPs : List String
  allowedNetworks : List String
  autoAllowedIP : Bool
  autoAllowedIPLimit : Int
  features : List String
  releases : List String
deriving DecidableEq, Repr

/-- The AllowedIPs/AllowedNetworks matching of CheckLicenseHandler: each
AllowedIPs entry is parsed as a literal IP, falling back to the address part
of a CIDR, unparseable entries are skipped; if no literal matches, each
AllowedNetworks entry is parsed as a CIDR and tested for containment. -/
def ipAllowedByLists (allowedIPs allowedNetworks : List String) (clientIP : Nat) : Bool :=
  let byIP := allowedIPs.any (fun entry =>
    match parseIP entry with
    | some ip => ip = clientIP
    | none =>
      match parseCIDR entry with
      | some (ip, _) => ip = clientIP
      | none => false)
  if byIP then true
  else
    allowedNetworks.any (fun entry =>
      match parseCIDR entry with
      | some (base, bits) => cidrContains base bits clientIP
      | none => false)

/-- Steps 1-2 of the pipeline: revoked status, then live expiry comparison
(`ExpiresAt.Before(time.Now())`, strict). The result pairs the `valid` flag
with the `reason` string ("" while valid), as in the handler's locals. -/
def statusExpiryStep (license : License) (now : Int) : Bool × String :=
  if license.status = .revoked then (false, "License is revoked")
  else
    match license.expiresAt with
    | some t => if t < now then (false, "License has expired") else (true, "")
    | none => (true, "")

/-- Step 3 as it stands in the src handler: runs only while valid and only
when an allow-list is non-empty; unparseable caller address is invalid;
otherwise the address must match the lists. -/
def ipStep (license : License) (clientIPStr : String) (prev : Bool × String) : Bool × String :=
  let (valid, reason) := prev
  if valid ∧ (license.allowedIPs ≠ [] ∨ license.allowedNetworks ≠ []) then
    match parseIP clientIPStr with
    | none => (false, "Unable to determine client IP for validation")
    | some clientIP =>
      if ipAllowedByLists license.allowedIPs license.allowedNetworks clientIP then
        (valid, reason)
      else (false, "IP address not allowed")
  else (valid, reason)

/-- Step 4: version gating, only when a version constraint was supplied and
validity still holds; an empty Releases list allows every version. -/
def versionStep (license : License) (version : String) (prev : Bool × String) : Bool × String :=
  let (valid, reason) := prev
  if version ≠ "" ∧ valid then
    if license.releases = [] ∨ version ∈ license.releases then (valid, reason)
    else (false, "License not valid for version " ++ version)
  else (valid, reason)

/-- Step 5: feature gating, only when a feature constraint was supplied and
validity still holds; the code must be present in Features. -/
def featureStep (license : License) (feature : String) (prev : Bool × String) : Bool × String :=
  let (valid, reason) := prev
  if feature ≠ "" ∧ valid then
    if feature ∈ license.features then (valid, reason)
    else (false, "Feature not enabled: " ++ feature)
  else (valid, reason)

/-- The full validation pipeline of the CheckLicenseHandler in src, in its
fixed order: status, expiration, IP, version, feature. -/
def validateLicense (license : License) (now : Int) (clientIPStr : String)
    (version feature : String) : Bool × String :=
  featureStep license feature
    (versionStep license version
      (ipStep license clientIPStr
        (statusExpiryStep license now)))

/-- The JSON body of a check response: an error object, or the check result
(`reason` present only when invalid, `token` present only when signing is
configured and succeeded). -/
inductive CheckBody
  | err (msg : String)
  | result (valid : Bool) (reason : Option String) (expiresAt : Option Int)
      (token : Option JWTClaims)
deriving DecidableEq, Repr

/-- A check response together with whether the license store was consulted. -/
structure CheckResponse where
  status : Nat
  body : CheckBody
  lookedUp : Bool
deriving DecidableEq, Repr

/-- CheckLicenseHandler from src: an empty X-License-Key header is rejected
with 400 by `requireLicenseKey` before any store access; an unknown key is
404; otherwise the pipeline runs, and a configured signing key adds a token
on signing success (a signing failure is logged and the token omitted). The
store is modelled as the `GetLicenseByKey` lookup function. -/
def CheckLicenseHandler (store : String → Option License) (signKey : GoStr)
    (headerKey : String) (clientIPStr : String) (version feature : String)
    (now : Int) : CheckResponse :=
  if headerKey = "" then
    ⟨400, .err "X-License-Key header is required", false⟩
  else
    match store headerKey with
    | none => ⟨404, .err "License not found", true⟩
    | some license =>
      let (valid, reason) := validateLicense license now clientIPStr version feature
      let token :=
        if signKey ≠ [] then
          match SignLicense signKey headerKey license.expiresAt valid license.features with
          | .ok t => some t
          | .error _ => none
        else none
      ⟨200, .result valid (if reason = "" then none else some reason) license.expiresAt token,
        true⟩

/-! ## The auto-allow IP step

Modelled from the spec: the current CheckLicenseHandler's step 3 with
adaptive growth ("IP/network check (only if AllowedIPs or AllowedNetworks is
non-empty, OR AutoAllowedIP is enabled) ... If not allowed and AutoAllowedIP
is enabled and len(AllowedIPs) < AutoAllowedIPLimit: append the caller's IP
to AllowedIPs and persist the License, then treat the address as allowed for
this call. If not allowed and growth is not available (disabled, or limit
already reached) → invalid, reason "IP address not allowed"."). The handler
source carrying this step is absent from src (src holds an older handler
without it); src/internal/api/auto_allowed_ip_test.go exercises exactly this
behaviour. The address matching reuses the matching code present in src. -/

/-- Step 3 with auto-allow growth. Besides the `valid`/`reason` pair it
returns the license persisted through the store's update, when growth
happened. -/
def ipStepAuto (license : License) (clientIPStr : String) (prev : Bool × String) :
    (Bool × String) × Option License :=
  let (valid, reason) := prev
  if valid ∧ (license.allowedIPs ≠ [] ∨ license.allowedNetworks ≠ [] ∨ license.autoAllowedIP) then
    match parseIP clientIPStr with
    | none => ((false, "Unable to determine client IP for validation"), none)
    | some clientIP =>
      if ipAllowedByLists license.allowedIPs license.allowedNetworks clientIP then
        ((valid, reason), none)
      else if license.autoAllowedIP ∧
          (license.allowedIPs.length : Int) < license.autoAllowedIPLimit then
        ((valid, reason), some { license with allowedIPs := license.allowedIPs ++ [clientIPStr] })
      else ((false, "IP address not allowed"), none)
  else ((valid, reason), none)

/-- The validation pipeline with the auto-allow step 3 (spec-modelled as in
`ipStepAuto`); the other steps are those of the handler in src. Returns the
check outcome and the license persisted by growth, if any. -/
def validateLicenseAuto (license : License) (now : Int) (clientIPStr : String)
    (version feature : String) : (Bool × String) × Option License :=
  let (afterIP, persisted) := ipStepAuto license clientIPStr (statusExpiryStep license now)
  (featureStep license feature (versionStep license version afterIP), persisted)

/-! ## Rate limiter (internal/api/middleware/rate_limit.go) -/

/-- config.RateLimitConfig, the fields the middleware reads. The float64
requests-per-second rate and the timestamps are modelled as rationals.
CacheSize/CacheTTL parameterize the LRU cache of buckets; its
capacity/TTL eviction is not modelled (it only decides which bucket state
survives between requests, not the admission rule). -/
structure RateLimitConfig where
  requestsPerSecond : ℚ
  burst : Int
  enabled : Bool
deriving DecidableEq

/-- The token-bucket state of one `rate.Limiter`: current tokens and the
time of the last update. A fresh limiter (`rate.NewLimiter`) starts with 0
tokens at the zero time, so its first consultation refills
`elapsed × rate` tokens, capped at the burst. -/
structure Limiter where
  tokens : ℚ
  last : ℚ
deriving DecidableEq

/-- `rate.Limiter.Allow` (AllowN with n = 1): refill since `last` at rate
`r` capped at burst `b`; admit and consume one token when one is available
(and 1 ≤ b); on rejection the limiter state is left unchanged. -/
def limiterAllow (r : ℚ) (b : Int) (lim : Limiter) (now : ℚ) : Bool × Limiter :=
  let tokens := min (lim.tokens + max (now - lim.last) 0 * r) (b : ℚ)
  if 1 ≤ b ∧ 1 ≤ tokens then (true, ⟨tokens - 1, now⟩)
  else (false, lim)

/-- middleware.RateLimiter: the per-IP bucket map plus the pool's rate,
burst and enabled flag. -/
structure RateLimiter where
  ips : List (String × Limiter)
  r : ℚ
  b : Int
  enabled : Bool
deriving DecidableEq

/-- `NewRateLimiter`: a fresh pool for one configuration. -/
def NewRateLimiter (cfg : RateLimitConfig) : RateLimiter :=
  ⟨[], cfg.requestsPerSecond, cfg.burst, cfg.enabled⟩

/-- Lookup in the bucket map. -/
def lookupIP : List (String × Limiter) → String → Option Limiter
  | [], _ => none
  | (k, v) :: rest, ip => if k = ip then some v else lookupIP rest ip

/-- Replace (or append) the bucket of one IP. -/
def setIP : List (String × Limiter) → String → Limiter → List (String × Limiter)
  | [], ip, lim => [(ip, lim)]
  | (k, v) :: rest, ip, lim =>
    if k = ip then (ip, lim) :: rest else (k, v) :: setIP rest ip lim

/-- `RateLimiter.GetLimiter`: the bucket already tracked for this IP, or a
fresh `rate.NewLimiter(r, b)` added to the map. -/
def GetLimiter (rl : RateLimiter) (ip : String) : Limiter × RateLimiter :=
  match lookupIP rl.ips ip with
  | some lim => (lim, rl)
  | none =>
    let lim : Limiter := ⟨0, 0⟩
    (lim, { rl with ips := setIP rl.ips ip lim })

/-- One request through `RateLimitMiddleware`: with the limiter disabled by
configuration every request proceeds (`c.Next()` with no pool consulted);
otherwise the bucket of the request's own client IP is consulted and the
request is rejected with 429 (aborted) exactly when no token is available.
Returns whether the request proceeds, and the pool afterwards. -/
def RateLimitMiddleware (rl : RateLimiter) (ip : String) (now : ℚ) : Bool × RateLimiter :=
  if ¬ rl.enabled then (true, rl)
  else
    let (lim, rl₁) := GetLimiter rl ip
    let (ok, lim') := limiterAllow rl.r rl.b lim now
    (ok, { rl₁ with ips := setIP rl₁.ips ip lim' })

/-- Whether the bucket associated with an IP has a token available for a
request at `now` (what `limiter.Allow()` answers for that bucket). -/
def bucketHasToken (rl : RateLimiter) (ip : String) (now : ℚ) : Bool :=
  (limiterAllow rl.r rl.b (GetLimiter rl ip).1 now).1

/-! ## Generate handler flow (GenerateLicenseHandler), as far as the
error-handling claims reach -/

/-- handlers.generateLicenseRequest, after JSON binding: `product_id`,
`type`, mutually exclusive `expires_at`/`duration`, `prefix`, `length`, and
the list fields. There is no separator or charset field. -/
structure GenerateRequest where
  productId : String
  licType : String
  expiresAt : Option Int
  duration : GoStr
  reqPrefix : GoStr
  length : Int
  featureCodes : List String
  releaseVersions : List String
  allowedIPs : List String
  allowedNetworks : List String
deriving DecidableEq

/-- The observable outcome of a generate request: HTTP-equivalent status,
the error message if any, whether the license store's create was reached,
and the key that was persisted when it was. (Entity assembly — uuid,
timestamps, the echoed License body — is omitted: no claim reads it.) -/
structure GenResponse where
  status : Nat
  error : Option String
  licenseStoreCalled : Bool
  createdKey : Option GoStr
deriving DecidableEq

/-- GenerateLicenseHandler from src, stage by stage: reject when both
`expires_at` and `duration` are set; parse the duration when given; fetch
the product (the lookup function models `productStore.GetProduct`, the
optional group models the group fetch for the product's group reference);
resolve settings; parse the charset; generate the key; persist. -/
def GenerateLicenseHandler (req : GenerateRequest)
    (productLookup : String → Option Product) (group? : Option ProductGroup)
    (src : RandSrc) : GenResponse :=
  if req.expiresAt.isSome ∧ req.duration ≠ [] then
    ⟨400, some "Cannot specify both expires_at and duration", false, none⟩
  else
    let durationRes : Except String Unit :=
      if req.expiresAt.isNone ∧ req.duration ≠ [] then
        (ParseExpirationDuration req.duration).map (fun _ => ())
      else .ok ()
    match durationRes with
    | .error _ => ⟨400, some "Invalid duration format", false, none⟩
    | .ok _ =>
      match productLookup req.productId with
      | none => ⟨400, some "Invalid product_id or product not found", false, none⟩
      | some product =>
        let s := resolveSettings req.reqPrefix req.length product group?
        match ParseCharset s.charsetRaw with
        | .error _ => ⟨400, some "Invalid charset configuration", false, none⟩
        | .ok parsedCharset =>
          match GenerateLicenseKey s.licensePrefix s.length s.separator parsedCharset src with
          | .error _ => ⟨500, some "Failed to generate license key", false, none⟩
          | .ok key => ⟨201, none, true, some key⟩

/-! ## Concrete inputs used by witnesses and counterexamples -/

/-- A random source that always draws index 0, erroring on an empty range
(`rand.Int` is never called with a non-positive bound). -/
def w4src : RandSrc := fun _ n => if n = 0 then .error "empty range" else .ok 0

/-- A product with license length 8 and no other generation defaults. -/
def productC5 : Product := ⟨[], [], [], 8⟩

/-- A revoked license whose expiry is also in the past (at `now = 10`). -/
def licRevoked : License := ⟨"K", .revoked, some 0, [], [], false, 0, [], []⟩

/-- An active but expired license restricted to the literal 10.0.0.1. -/
def licExpired : License := ⟨"K", .active, some 5, ["10.0.0.1"], [], false, 0, [], []⟩

/-- An otherwise-valid license with one feature code and one release. -/
def licGated : License := ⟨"K", .active, none, [], [], false, 0, ["sso"], ["1.0.0"]⟩

/-- An auto-allow license with room to grow (limit 2, empty list). -/
def licAutoRoom : License := ⟨"K", .active, none, [], [], true, 2, [], []⟩

/-- An auto-allow license whose list has already reached its limit. -/
def licAutoFull : License := ⟨"K", .active, none, ["10.0.0.1", "10.0.0.2"], [], true, 2, [], []⟩

/-- A generate request carrying the malformed duration "3x". -/
def reqC6 : GenerateRequest := ⟨"p", "perpetual", none, gostr "3x", [], 0, [], [], [], []⟩

/-- A well-formed signing key: the base64 encoding (86 'A's and "==") of 64
zero bytes, the ed25519 private key size. -/
def goodSignKey : GoStr := List.replicate 86 65 ++ [61, 61]

/-- Malformed key material ("!!" is not base64). -/
def badSignKey : GoStr := gostr "!!"

/-- A valid license with an expiry and one feature, for signing. -/
def licSigned : License := ⟨"KEY-1", .active, some 99, [], [], false, 0, ["sso"], []⟩

/-- A disabled rate-limit pool. -/
def rlOff : RateLimiter := ⟨[], 5, 10, false⟩

/-- An enabled pool with zero refill rate tracking one exhausted bucket. -/
def rlOn : RateLimiter := ⟨[("1.2.3.4", ⟨0, 0⟩)], 0, 10, true⟩

/-! ## Helper lemmas -/

theorem expandPart_of_not_bad (part : GoStr) (h : claimBadRange part = false) :
    expandPart part = .ok (claimExpand part) := by
  rcases part with _ | ⟨a, _ | ⟨m, _ | ⟨b, _ | ⟨c, rest⟩⟩⟩⟩
  · rfl
  · rfl
  · rfl
  · by_cases hm : m = 45
    · subst hm
      have hab : ¬ a > b := by simpa [claimBadRange] using h
      simp [expandPart, claimExpand, hab]
    · simp [expandPart, claimExpand, hm]
  · rfl

theorem expandPart_of_bad (part : GoStr) (h : claimBadRange part = true) :
    expandPart part = .error "invalid range" := by
  rcases part with _ | ⟨a, _ | ⟨m, _ | ⟨b, _ | ⟨c, rest⟩⟩⟩⟩ <;>
    simp_all [claimBadRange, expandPart]

theorem foldExpand_ok (parts : List GoStr) (acc : GoStr)
    (h : ∀ part ∈ parts, claimBadRange part = false) :
    parts.foldlM (fun acc part => (expandPart part).map (acc ++ ·)) acc
      = .ok (acc ++ (parts.map claimExpand).flatten) := by
  induction parts generalizing acc with
  | nil => simp [pure, Except.pure]
  | cons p ps ih =>
    have hp := h p (by simp)
    rw [List.foldlM_cons, expandPart_of_not_bad p hp]
    show ps.foldlM _ (acc ++ claimExpand p) = _
    rw [ih (acc ++ claimExpand p) (fun q hq => h q (by simp [hq]))]
    simp [List.append_assoc]

theorem foldExpand_err (parts : List GoStr) (acc : GoStr)
    (h : ∃ part ∈ parts, claimBadRange part = true) :
    (parts.foldlM (fun acc part => (expandPart part).map (acc ++ ·)) acc).isOk = false := by
  induction parts generalizing acc with
  | nil => simp_all
  | cons p ps ih =>
    rcases h with ⟨q, hq, hbad⟩
    rw [List.foldlM_cons]
    rcases List.mem_cons.mp hq with rfl | hq'
    · rw [expandPart_of_bad q hbad]; rfl
    · cases hgood : claimBadRange p with
      | true => rw [expandPart_of_bad p hgood]; rfl
      | false =>
        rw [expandPart_of_not_bad p hgood]
        exact ih _ ⟨q, hq', hbad⟩

theorem sampleChars_ok_spec (src : RandSrc) (cs : GoStr)
    (hsrc : ∀ i n v, src i n = .ok v → v < n) :
    ∀ (n i : Nat) (out : GoStr), sampleChars src cs i n = .ok out →
      out.length = n ∧ ∀ b ∈ out, b ∈ cs := by
  intro n
  induction n with
  | zero =>
    intro i out h
    simp [sampleChars] at h
    subst h
    simp
  | succ m ih =>
    intro i out h
    simp only [sampleChars] at h
    cases hnum : src i cs.length with
    | error e => rw [hnum] at h; exact absurd h (by simp [Bind.bind, Except.bind])
    | ok num =>
      rw [hnum] at h
      cases hrest : sampleChars src cs (i + 1) m with
      | error e =>
        rw [hrest] at h
        exact absurd h (by simp [Bind.bind, Except.bind])
      | ok rest =>
        rw [hrest] at h
        have hout : out = cs.getD num 0 :: rest := by
          simpa [Bind.bind, Except.bind, pure, Except.pure] using h.symm
        have hlt : num < cs.length := hsrc i cs.length num hnum
        have hmem : cs.getD num 0 ∈ cs := by
          rw [List.getD_eq_getElem?_getD, List.getElem?_eq_getElem hlt]
          exact List.getElem_mem hlt
        obtain ⟨hlen, hall⟩ := ih (i + 1) rest hrest
        subst hout
        refine ⟨by simp [hlen], ?_⟩
        intro b hb
        rcases List.mem_cons.mp hb with rfl | hb'
        · exact hmem
        · exact hall b hb'

theorem sampleChars_total (src : RandSrc) (cs : GoStr)
    (hok : ∀ i, (src i cs.length).isOk = true) :
    ∀ (n i : Nat), (sampleChars src cs i n).isOk = true := by
  intro n
  induction n with
  | zero => intro i; rfl
  | succ m ih =>
    intro i
    simp only [sampleChars]
    cases hnum : src i cs.length with
    | error e => have := hok i; rw [hnum] at this; simp [Except.isOk, Except.toBool] at this
    | ok num =>
      cases hrest : sampleChars src cs (i + 1) m with
      | error e =>
        have := ih (i + 1); rw [hrest] at this
        simp [Except.isOk, Except.toBool] at this
      | ok rest => simp [Bind.bind, Except.bind, hrest, pure, Except.pure, Except.isOk, Except.toBool]

/-! ## Claim theorems -/

/-- C3: for every charset-spec string, empty input yields the built-in
default alphabet; otherwise the output is the concatenation, in token order
and without deduplication, of each comma-separated token's literal
characters or, for a 3-character range token, the characters from X to Y
inclusive; and parsing fails exactly when a range token has X > Y. -/
theorem C3_charset_parsing (input : GoStr) :
    ParseCharset [] = .ok defaultCharset
    ∧ (input ≠ [] →
        (((ParseCharset input).isOk = false) ↔
          ∃ part ∈ splitByte 44 input, claimBadRange part = true)
        ∧ ((∀ part ∈ splitByte 44 input, claimBadRange part = false) →
            ParseCharset input = .ok ((splitByte 44 input).map claimExpand).flatten)) := by
  refine ⟨rfl, fun hne => ⟨⟨?_, ?_⟩, ?_⟩⟩
  · intro herr
    by_contra hno
    push_neg at hno
    have hok := foldExpand_ok (splitByte 44 input) []
      (fun q hq => by simpa using hno q hq)
    simp only [ParseCharset, if_neg hne] at herr
    rw [hok] at herr
    simp [Except.isOk, Except.toBool] at herr
  · intro hex
    simp only [ParseCharset, if_neg hne]
    exact foldExpand_err _ [] hex
  · intro hall
    simp only [ParseCharset, if_neg hne]
    rw [foldExpand_ok _ [] hall]
    simp

/-- Witness for C3: "a-c,Z" expands to "abcZ", and the descending range
"c-a" is rejected. -/
theorem C3_charset_parsing_witness :
    ParseCharset (gostr "a-c,Z") = .ok (gostr "abcZ")
    ∧ (ParseCharset (gostr "c-a")).isOk = false := by
  constructor
  · have h := ((C3_charset_parsing (gostr "a-c,Z")).2 (by decide)).2 (by decide)
    rw [h]
    congr 1
  · exact ((C3_charset_parsing (gostr "c-a")).2 (by decide)).1.mpr
      ⟨gostr "c-a", by decide, by decide⟩

/-- C4: for every successful key generation with positive length, non-empty
alphabet and any prefix, the random part has exactly `length` characters,
each drawn from the supplied alphabet via the random source; the result is
prefix + separator + randomPart when the prefix is non-empty (separator
defaulting to "-" when empty) and just randomPart otherwise; with the
single-character alphabet "A" the random part is `length` copies of "A";
and generation fails only when the randomness source returns an error. -/
theorem C4_key_generation (pfx separator charset : GoStr) (length : Int) (src : RandSrc)
    (hlen : 0 < length) (hcs : charset ≠ [])
    (hsrc : ∀ i n v, src i n = .ok v → v < n) :
    (∀ out, GenerateLicenseKey pfx length separator charset src = .ok out →
      ∃ randomPart : GoStr,
        out = (if pfx = [] then randomPart
               else pfx ++ (if separator = [] then [45] else separator) ++ randomPart)
        ∧ randomPart.length = length.toNat
        ∧ (∀ b ∈ randomPart, b ∈ charset)
        ∧ (charset = [65] → randomPart = List.replicate length.toNat 65))
    ∧ ((∀ i, (src i charset.length).isOk = true) →
        (GenerateLicenseKey pfx length separator charset src).isOk = true) := by
  have hnot : ¬ length ≤ 0 := by omega
  constructor
  · intro out hout
    simp only [GenerateLicenseKey, if_neg hnot, if_neg hcs] at hout
    cases hs : sampleChars src charset 0 length.toNat with
    | error e => rw [hs] at hout; cases hout
    | ok randomPart =>
      rw [hs] at hout
      obtain ⟨hlenr, hmemr⟩ := sampleChars_ok_spec src charset hsrc _ _ _ hs
      refine ⟨randomPart, ?_, hlenr, hmemr, ?_⟩
      · by_cases hp : pfx = []
        · simp only [hp] at hout ⊢
          simpa using hout.symm
        · simp only [hp] at hout ⊢
          simp only [ne_eq, hp, not_false_iff, if_true, if_neg hp] at hout ⊢
          simpa using hout.symm
      · intro hA
        subst hA
        refine List.eq_replicate_iff.mpr ⟨hlenr, fun b hb => ?_⟩
        simpa using hmemr b hb
  · intro hok
    simp only [GenerateLicenseKey, if_neg hnot, if_neg hcs]
    cases hs : sampleChars src charset 0 length.toNat with
    | error e =>
      have := sampleChars_total src charset hok length.toNat 0
      rw [hs] at this
      simp [Except.isOk, Except.toBool] at this
    | ok randomPart =>
      by_cases hp : pfx = [] <;> simp [hp, Except.isOk, Except.toBool]

/-- Witness for C4: with prefix "K", length 2, empty separator, alphabet
"AB" and a source that always draws index 0, generation succeeds and the
theorem yields the decomposition of the produced key "K-AA". -/
theorem C4_key_generation_witness :
    (GenerateLicenseKey (gostr "K") 2 [] [65, 66] w4src).isOk = true
    ∧ ∃ randomPart : GoStr,
        gostr "K-AA" = (if gostr "K" = ([] : GoStr) then randomPart
          else gostr "K" ++ (if ([] : GoStr) = ([] : GoStr) then [45] else []) ++ randomPart)
        ∧ randomPart.length = (2 : Int).toNat
        ∧ (∀ b ∈ randomPart, b ∈ ([65, 66] : GoStr)) := by
  have hsrc : ∀ i n v, w4src i n = .ok v → v < n := by
    intro i n v h
    unfold w4src at h
    split at h
    · cases h
    · cases h; omega
  have h := C4_key_generation (gostr "K") [] [65, 66] 2 w4src (by decide) (by decide) hsrc
  obtain ⟨rp, h1, h2, h3, _⟩ := h.1 (gostr "K-AA") rfl
  exact ⟨h.2 (fun i => rfl), rp, h1, h2, h3⟩

/-- Counterexample for C5: with a per-request length of -1 (non-zero, hence
"explicit" in the claim's words) and a product length of 8, the claimed
precedence resolves the length to the request's -1, but the handler resolves
it to the built-in default 12 (its final guard replaces every non-positive
value). -/
theorem C5_counterexample :
    claimedLength (-1) productC5 none = -1
    ∧ (resolveSettings [] (-1) productC5 none).length = 12
    ∧ (resolveSettings [] (-1) productC5 none).length ≠ claimedLength (-1) productC5 none := by
  decide

/-- C5 (amended): prefix, separator and charset resolve exactly with the
claimed precedence (request override for the prefix; the request carries no
separator/charset field); for the length, non-zero still marks a value as
provided at each level, but any non-positive resolved value falls back to
the built-in default 12. -/
theorem C5_amended_settings_resolution (reqPrefix : GoStr) (reqLength : Int)
    (product : Product) (group? : Option ProductGroup) :
    (resolveSettings reqPrefix reqLength product group?).licensePrefix
        = claimedPrefix reqPrefix product group?
    ∧ effectiveSeparator (resolveSettings reqPrefix reqLength product group?)
        = claimedSeparator product group?
    ∧ (resolveSettings reqPrefix reqLength product group?).charsetRaw
        = claimedCharsetRaw product group?
    ∧ (resolveSettings reqPrefix reqLength product group?).length
        = amendedLength reqLength product group?
    ∧ ParseCharset [] = .ok defaultCharset := by
  unfold resolveSettings claimedPrefix claimedSeparator claimedCharsetRaw amendedLength
    effectiveSeparator
  cases group? <;> refine ⟨?_, ?_, ?_, ?_, rfl⟩ <;>
    simp only [Option.map, Option.getD] <;> split_ifs <;> first | rfl | simp_all

theorem versionStep_none (license : License) (prev : Bool × String) :
    versionStep license "" prev = prev := by
  rcases prev with ⟨v, r⟩
  simp [versionStep]

theorem featureStep_none (license : License) (prev : Bool × String) :
    featureStep license "" prev = prev := by
  rcases prev with ⟨v, r⟩
  simp [featureStep]

/-- C2: the rules run in the fixed order status, expiration, IP,
short-circuiting on first failure: a revoked license with a past expiry
reports "License is revoked", and an active but expired license whose
caller IP is not in its allow-lists reports "License has expired". -/
theorem C2_validation_order (license : License) (now : Int) (clientIP version feature : String) :
    (∀ t, license.status = .revoked → license.expiresAt = some t → t < now →
      validateLicense license now clientIP version feature = (false, "License is revoked"))
    ∧ (∀ t, license.status = .active → license.expiresAt = some t → t < now →
      (∀ ip, parseIP clientIP = some ip →
        ipAllowedByLists license.allowedIPs license.allowedNetworks ip = false) →
      validateLicense license now clientIP version feature = (false, "License has expired")) := by
  constructor
  · intro t hrev hexp hlt
    have h1 : statusExpiryStep license now = (false, "License is revoked") := by
      simp [statusExpiryStep, hrev]
    simp [validateLicense, h1, ipStep, versionStep, featureStep]
  · intro t hact hexp hlt _
    have h1 : statusExpiryStep license now = (false, "License has expired") := by
      simp [statusExpiryStep, hact, hexp, hlt]
    simp [validateLicense, h1, ipStep, versionStep, featureStep]

/-- Witness for C2: at now = 10, a revoked license expired at 0 reports
revocation, and an active license expired at 5 with caller 10.0.0.2 outside
its allow-list reports expiry. -/
theorem C2_validation_order_witness :
    validateLicense licRevoked 10 "10.0.0.2" "" "" = (false, "License is revoked")
    ∧ validateLicense licExpired 10 "10.0.0.2" "" "" = (false, "License has expired") := by
  constructor
  · exact (C2_validation_order licRevoked 10 "10.0.0.2" "" "").1 0 rfl rfl (by decide)
  · refine (C2_validation_order licExpired 10 "10.0.0.2" "" "").2 5 rfl rfl (by decide) ?_
    intro ip h
    rw [show parseIP "10.0.0.2" = some 167772162 from rfl] at h
    cases h
    decide

/-- C7: on an otherwise-valid license, a version constraint passes iff
Releases is empty or contains the version verbatim (otherwise reason
"License not valid for version {version}"), while a feature constraint
passes iff Features contains the code verbatim — an empty Features list
always fails with reason "Feature not enabled: {feature}". -/
theorem C7_version_feature_gating (license : License) (now : Int) (clientIP : String)
    (version feature : String)
    (hbase : validateLicense license now clientIP "" "" = (true, ""))
    (hv : version ≠ "") (hf : feature ≠ "") :
    (validateLicense license now clientIP version "" =
      if license.releases = [] ∨ version ∈ license.releases then (true, "")
      else (false, "License not valid for version " ++ version))
    ∧ (validateLicense license now clientIP "" feature =
      if feature ∈ license.features then (true, "")
      else (false, "Feature not enabled: " ++ feature))
    ∧ (license.features = [] →
      validateLicense license now clientIP "" feature =
        (false, "Feature not enabled: " ++ feature)) := by
  have hX : ipStep license clientIP (statusExpiryStep license now) = (true, "") := by
    simpa [validateLicense, versionStep_none, featureStep_none] using hbase
  refine ⟨?_, ?_, ?_⟩
  · rw [validateLicense, hX, featureStep_none]
    simp [versionStep, hv]
  · rw [validateLicense, hX, versionStep_none]
    simp [featureStep, hf]
  · intro hempty
    rw [validateLicense, hX, versionStep_none]
    simp [featureStep, hf, hempty]

/-- Witness for C7: a license with Releases = ["1.0.0"] and Features =
["sso"] rejects version 2.0.0 with the version reason and accepts feature
sso. -/
theorem C7_version_feature_gating_witness :
    validateLicense licGated 10 "1.2.3.4" "2.0.0" "" =
      (false, "License not valid for version 2.0.0")
    ∧ validateLicense licGated 10 "1.2.3.4" "" "sso" = (true, "") := by
  have h := C7_version_feature_gating licGated 10 "1.2.3.4" "2.0.0" "sso" rfl
    (by decide) (by decide)
  constructor
  · rw [h.1]
    decide
  · rw [h.2.1]
    decide

/-- C10: a check request whose X-License-Key header is empty is answered
with 400 and error "X-License-Key header is required", with no license
lookup and no validation step performed. -/
theorem C10_missing_header (store : String → Option License) (signKey : GoStr)
    (headerKey clientIP version feature : String) (now : Int) (h : headerKey = "") :
    CheckLicenseHandler store signKey headerKey clientIP version feature now =
      ⟨400, .err "X-License-Key header is required", false⟩ := by
  subst h
  simp [CheckLicenseHandler]

/-- Witness for C10: the empty header against an arbitrary store. -/
theorem C10_missing_header_witness :
    CheckLicenseHandler (fun _ => none) [] "" "1.2.3.4" "" "" 0 =
      ⟨400, .err "X-License-Key header is required", false⟩ :=
  C10_missing_header (fun _ => none) [] "" "1.2.3.4" "" "" 0 rfl

/-- C1: on an otherwise-valid license whose caller IP parses and is not
already allowed by AllowedIPs/AllowedNetworks, when AutoAllowedIP is enabled
and len(AllowedIPs) < AutoAllowedIPLimit the check appends the caller's IP
to AllowedIPs, persists the license through the store's update, and treats
the address as allowed for this call; when the IP restriction applies but
growth is not available (disabled, or limit reached) the check is invalid
with reason "IP address not allowed". (Settled against the spec-modelled
`ipStepAuto`; see its doc comment.) -/
theorem C1_auto_allow_growth (license : License) (now : Int) (clientIPStr : String)
    (clientIP : Nat)
    (hok : statusExpiryStep license now = (true, ""))
    (hparse : parseIP clientIPStr = some clientIP)
    (hnot : ipAllowedByLists license.allowedIPs license.allowedNetworks clientIP = false) :
    (license.autoAllowedIP = true →
      (license.allowedIPs.length : Int) < license.autoAllowedIPLimit →
      validateLicenseAuto license now clientIPStr "" "" =
        ((true, ""), some { license with allowedIPs := license.allowedIPs ++ [clientIPStr] }))
    ∧ ((license.allowedIPs ≠ [] ∨ license.allowedNetworks ≠ [] ∨ license.autoAllowedIP = true) →
      (license.autoAllowedIP = false ∨
        license.autoAllowedIPLimit ≤ (license.allowedIPs.length : Int)) →
      validateLicenseAuto license now clientIPStr "" "" =
        ((false, "IP address not allowed"), none)) := by
  constructor
  · intro hauto hroom
    have hstep : ipStepAuto license clientIPStr (statusExpiryStep license now) =
        ((true, ""), some { license with allowedIPs := license.allowedIPs ++ [clientIPStr] }) := by
      rw [hok]
      simp [ipStepAuto, hparse, hnot, hauto, hroom]
    simp [validateLicenseAuto, hstep, versionStep_none, featureStep_none]
  · intro hgate hno
    have hstep : ipStepAuto license clientIPStr (statusExpiryStep license now) =
        ((false, "IP address not allowed"), none) := by
      rw [hok]
      rcases hno with hno | hno
      · have hgate' : license.allowedIPs ≠ [] ∨ license.allowedNetworks ≠ [] := by
          rcases hgate with h | h | h
          · exact Or.inl h
          · exact Or.inr h
          · rw [hno] at h; exact absurd h (by simp)
        rcases hgate' with h | h <;> simp [ipStepAuto, hparse, hnot, hno, h]
      · have hcond : ¬ ((license.allowedIPs.length : Int) < license.autoAllowedIPLimit) := by
          omega
        rcases hgate with h | h | h <;> simp [ipStepAuto, hparse, hnot, hcond, h]
    simp [validateLicenseAuto, hstep, versionStep_none, featureStep_none]

/-- Witness for C1: a license with AutoAllowedIP = true, limit 2 and an
empty list admits 192.168.1.100 and persists the grown list, while one
whose two-entry list has reached the limit rejects 192.168.1.101 with
"IP address not allowed". -/
theorem C1_auto_allow_growth_witness :
    validateLicenseAuto licAutoRoom 10 "192.168.1.100" "" "" =
      ((true, ""), some { licAutoRoom with allowedIPs := ["192.168.1.100"] })
    ∧ validateLicenseAuto licAutoFull 10 "192.168.1.101" "" "" =
      ((false, "IP address not allowed"), none) := by
  constructor
  · have h := (C1_auto_allow_growth licAutoRoom 10 "192.168.1.100" 3232235876
      rfl rfl (by decide)).1 rfl (by decide)
    simpa using h
  · refine (C1_auto_allow_growth licAutoFull 10 "192.168.1.101" 3232235877
      rfl rfl ?_).2 (by decide) (by decide)
    decide

theorem isSuffixOf_of_drop (d u : GoStr) (k : Nat) (hd : d.drop k = u) :
    u.isSuffixOf d = true := by
  rw [List.isSuffixOf_iff_suffix]
  exact ⟨d.take k, by rw [← hd, List.take_append_drop]⟩

theorem parseExpirationDuration_ok_wellFormed (d : GoStr)
    (h : (ParseExpirationDuration d).isOk = true) :
    claimWellFormedDuration d = true := by
  by_cases hlen : d.length < 2
  · unfold ParseExpirationDuration at h
    rw [if_pos hlen] at h
    simp [Except.isOk, Except.toBool] at h
  · unfold ParseExpirationDuration at h
    rw [if_neg hlen] at h
    by_cases hsuf : ([109, 111] : GoStr).isSuffixOf d
    · simp only [hsuf, if_true] at h
      cases hatoi : goAtoi (d.take (d.length - 2)) with
      | error e => rw [hatoi] at h; simp [Except.isOk, Except.toBool] at h
      | ok v =>
        simp [claimWellFormedDuration, endsWithUnit, hsuf, hatoi, Except.isOk, Except.toBool]
    · rw [Bool.not_eq_true] at hsuf
      simp only [hsuf, Bool.false_eq_true, if_false] at h
      cases hatoi : goAtoi (d.take (d.length - 1)) with
      | error e => rw [hatoi] at h; simp [Except.isOk, Except.toBool] at h
      | ok v =>
        rw [hatoi] at h
        split_ifs at h with h1 h2 h3 h4 h5 h6
        · simp [claimWellFormedDuration, endsWithUnit, isSuffixOf_of_drop d _ _ h1, hatoi, Except.isOk, Except.toBool]
        · simp [claimWellFormedDuration, endsWithUnit, isSuffixOf_of_drop d _ _ h2, hatoi, Except.isOk, Except.toBool]
        · simp [claimWellFormedDuration, endsWithUnit, isSuffixOf_of_drop d _ _ h3, hatoi, Except.isOk, Except.toBool]
        · simp [claimWellFormedDuration, endsWithUnit, isSuffixOf_of_drop d _ _ h4, hatoi, Except.isOk, Except.toBool]
        · have hl := congrArg List.length h5
          simp [List.length_drop] at hl
          omega
        · simp [claimWellFormedDuration, endsWithUnit, isSuffixOf_of_drop d _ _ h6, hatoi, Except.isOk, Except.toBool]
        · simp [Except.isOk, Except.toBool] at h

/-- C6: a generate request in which both expires_at and duration are set,
or whose duration is set but not of the form Nm/Nh/Nd/Nw/Nmo/Ny with an
integer N, is rejected with a 400-equivalent error and a descriptive
message, and the license store is never called. -/
theorem C6_generate_input_errors (req : GenerateRequest)
    (productLookup : String → Option Product) (group? : Option ProductGroup) (src : RandSrc)
    (h : (req.expiresAt.isSome = true ∧ req.duration ≠ [])
       ∨ (req.duration ≠ [] ∧ claimWellFormedDuration req.duration = false)) :
    (GenerateLicenseHandler req productLookup group? src).status = 400
    ∧ (GenerateLicenseHandler req productLookup group? src).error.isSome = true
    ∧ (GenerateLicenseHandler req productLookup group? src).licenseStoreCalled = false := by
  rcases h with ⟨hsome, hdur⟩ | ⟨hdur, hbad⟩
  · simp [GenerateLicenseHandler, hsome, hdur]
  · by_cases hsome : req.expiresAt.isSome = true
    · simp [GenerateLicenseHandler, hsome, hdur]
    · have hnone : req.expiresAt.isNone = true := by
        cases hx : req.expiresAt
        · rfl
        · rw [hx] at hsome; simp at hsome
      cases hp : ParseExpirationDuration req.duration with
      | ok v =>
        have := parseExpirationDuration_ok_wellFormed req.duration (by rw [hp]; rfl)
        rw [this] at hbad
        cases hbad
      | error e =>
        simp [GenerateLicenseHandler, hsome, hdur, hnone, hp, Except.map]

/-- Witness for C6: the request with duration "3x" is rejected with 400 and
the license store is never reached. -/
theorem C6_generate_input_errors_witness :
    (GenerateLicenseHandler reqC6 (fun _ => none) none w4src).status = 400
    ∧ (GenerateLicenseHandler reqC6 (fun _ => none) none w4src).error.isSome = true
    ∧ (GenerateLicenseHandler reqC6 (fun _ => none) none w4src).licenseStoreCalled = false :=
  C6_generate_input_errors reqC6 (fun _ => none) none w4src
    (Or.inr ⟨by decide, by decide⟩)

theorem signLicense_ok (k : GoStr) (key : String) (exp : Option Int) (valid : Bool)
    (features : List String) (claims : JWTClaims)
    (h : SignLicense k key exp valid features = .ok claims) :
    claims = ⟨key, "clortho", valid, features, exp⟩ := by
  by_cases hk : k = []
  · simp [SignLicense, hk] at h
  · simp only [SignLicense, if_neg hk] at h
    cases hdec : base64StdDecode k with
    | error e => rw [hdec] at h; cases h
    | ok bytes =>
      simp only [hdec] at h
      by_cases hl : bytes.length = 64
      · rw [if_neg (fun hc => hc hl)] at h
        cases h
        rfl
      · rw [if_pos hl] at h
        cases h

/-- C8: a signed token's payload states subject = the license key, issuer =
the fixed system identifier "clortho", valid = the boolean check outcome,
features = the license's features, and an expiration claim exactly when an
expiry is set; when the key material is absent or malformed, signing fails,
the check response omits the token field, and the response itself still
succeeds (200 with the check result). -/
theorem C8_offline_token (store : String → Option License) (signKey : GoStr)
    (headerKey clientIPStr version feature : String) (now : Int) (license : License)
    (valid : Bool) (reason : String)
    (hkey : headerKey ≠ "") (hstore : store headerKey = some license)
    (hvr : validateLicense license now clientIPStr version feature = (valid, reason)) :
    (∀ claims, SignLicense signKey headerKey license.expiresAt valid license.features
        = .ok claims →
      claims.sub = headerKey ∧ claims.iss = "clortho" ∧ claims.valid = valid
      ∧ claims.features = license.features ∧ claims.exp = license.expiresAt
      ∧ (claims.exp.isSome ↔ license.expiresAt.isSome)
      ∧ (CheckLicenseHandler store signKey headerKey clientIPStr version feature now).status
          = 200
      ∧ (CheckLicenseHandler store signKey headerKey clientIPStr version feature now).body
          = .result valid (if reason = "" then none else some reason) license.expiresAt
              (some claims))
    ∧ ((SignLicense signKey headerKey license.expiresAt valid license.features).isOk
          = false →
      (CheckLicenseHandler store signKey headerKey clientIPStr version feature now).status
          = 200
      ∧ (CheckLicenseHandler store signKey headerKey clientIPStr version feature now).body
          = .result valid (if reason = "" then none else some reason) license.expiresAt
              none) := by
  constructor
  · intro claims hsign
    have hne : signKey ≠ [] := by
      intro he
      rw [he] at hsign
      simp [SignLicense] at hsign
    have hc := signLicense_ok _ _ _ _ _ _ hsign
    subst hc
    refine ⟨rfl, rfl, rfl, rfl, rfl, Iff.rfl, ?_, ?_⟩
    · simp [CheckLicenseHandler, hkey, hstore, hvr]
    · simp [CheckLicenseHandler, hkey, hstore, hvr, hne, hsign]
  · intro hfail
    by_cases hne : signKey = []
    · constructor <;> simp [CheckLicenseHandler, hkey, hstore, hvr, hne]
    · cases hs : SignLicense signKey headerKey license.expiresAt valid license.features with
      | ok t => rw [hs] at hfail; simp [Except.isOk, Except.toBool] at hfail
      | error e =>
        constructor <;> simp [CheckLicenseHandler, hkey, hstore, hvr, hne, hs]

/-- Witness for C8: with a well-formed 64-byte key the handler returns 200
and attaches the token whose payload carries the subject, issuer, outcome,
features and expiry; with malformed key material the handler still returns
200 with the result and no token. -/
theorem C8_offline_token_witness :
    (CheckLicenseHandler (fun _ => some licSigned) goodSignKey "KEY-1" "1.2.3.4" "" "" 10).body
      = .result true none (some 99) (some ⟨"KEY-1", "clortho", true, ["sso"], some 99⟩)
    ∧ (CheckLicenseHandler (fun _ => some licSigned) badSignKey "KEY-1" "1.2.3.4" "" "" 10).status
        = 200
    ∧ (CheckLicenseHandler (fun _ => some licSigned) badSignKey "KEY-1" "1.2.3.4" "" "" 10).body
        = .result true none (some 99) none := by
  have hgood := (C8_offline_token (fun _ => some licSigned) goodSignKey "KEY-1" "1.2.3.4"
    "" "" 10 licSigned true "" (by decide) rfl rfl).1
    ⟨"KEY-1", "clortho", true, ["sso"], some 99⟩ rfl
  have hbad := (C8_offline_token (fun _ => some licSigned) badSignKey "KEY-1" "1.2.3.4"
    "" "" 10 licSigned true "" (by decide) rfl rfl).2 rfl
  exact ⟨hgood.2.2.2.2.2.2.2, hbad.1, hbad.2⟩

theorem lookupIP_setIP_ne (l : List (String × Limiter)) (ip ip' : String) (lim : Limiter)
    (h : ip' ≠ ip) : lookupIP (setIP l ip lim) ip' = lookupIP l ip' := by
  induction l with
  | nil => simp [setIP, lookupIP, Ne.symm h]
  | cons kv rest ih =>
    rcases kv with ⟨k, v⟩
    by_cases hk : k = ip
    · subst hk
      simp [setIP, lookupIP, Ne.symm h]
    · simp [setIP, lookupIP, hk, ih]

/-- C9: with the limiter disabled by configuration every request proceeds;
when enabled, a request is rejected exactly when the token bucket of its own
client IP has no token available, and the buckets of all other IPs are left
untouched. -/
theorem C9_rate_limiting (rl : RateLimiter) (ip : String) (now : ℚ) :
    (rl.enabled = false → (RateLimitMiddleware rl ip now).1 = true)
    ∧ (rl.enabled = true →
        ((RateLimitMiddleware rl ip now).1 = false ↔ bucketHasToken rl ip now = false))
    ∧ (∀ ip', ip' ≠ ip →
        lookupIP (RateLimitMiddleware rl ip now).2.ips ip' = lookupIP rl.ips ip') := by
  refine ⟨?_, ?_, ?_⟩
  · intro h
    simp [RateLimitMiddleware, h]
  · intro h
    unfold RateLimitMiddleware bucketHasToken GetLimiter
    rw [if_neg (by simp [h])]
  · intro ip' hne
    by_cases h : rl.enabled
    · unfold RateLimitMiddleware GetLimiter
      rw [if_neg (by simp [h])]
      cases hl : lookupIP rl.ips ip with
      | some lim =>
        simp only [hl]
        rcases ha : limiterAllow rl.r rl.b lim now with ⟨ok, lim'⟩
        simp only [ha]
        simp [lookupIP_setIP_ne, hne]
      | none =>
        simp only [hl]
        rcases ha : limiterAllow rl.r rl.b ⟨0, 0⟩ now with ⟨ok, lim'⟩
        simp only [ha]
        simp [lookupIP_setIP_ne, hne]
    · simp [RateLimitMiddleware, h]

/-- Witness for C9: the disabled pool admits a request from 1.2.3.4; the
enabled zero-rate pool with an exhausted bucket rejects it; and in the
enabled pool the bucket of 5.6.7.8 is untouched by 1.2.3.4's request. -/
theorem C9_rate_limiting_witness :
    (RateLimitMiddleware rlOff "1.2.3.4" 0).1 = true
    ∧ (RateLimitMiddleware rlOn "1.2.3.4" 0).1 = false
    ∧ lookupIP (RateLimitMiddleware rlOn "1.2.3.4" 0).2.ips "5.6.7.8"
        = lookupIP rlOn.ips "5.6.7.8" := by
  refine ⟨(C9_rate_limiting rlOff "1.2.3.4" 0).1 rfl, ?_, ?_⟩
  · refine ((C9_rate_limiting rlOn "1.2.3.4" 0).2.1 rfl).mpr ?_
    simp [bucketHasToken, GetLimiter, lookupIP, rlOn, limiterAllow]
    norm_num
  · exact (C9_rate_limiting rlOn "1.2.3.4" 0).2.2 "5.6.7.8" (by decide)

end Clortho
